import Mathlib

/-!
Verification of the solrq query-building library (src/solrq/__init__.py)
against its natural-language specification.

The development shallowly embeds the library:

* `Value`, `Range`, `Proximity` — the value/escaping layer;
* `QOperator` combinators, `QNode` expression trees and their compiler;
* a small explicit-store model (`Store`, `rangeInitS`, `compileS`) used for the
  frame/immutability property of `Range.__init__`, which is the one place in
  the source that mutates already-constructed objects.

Python exceptions are modelled with `Except Err`; `ValueError` is
`Err.invalidArgument` (the spec's InvalidArgument), `TypeError` is
`Err.typeError`, and the `AttributeError` an empty `Q` node would raise on
compilation is `Err.attributeError`.
-/

namespace Solrq

/-- Error taxonomy of the library: `ValueError` (the spec's InvalidArgument),
`TypeError`, and the `AttributeError` raised when compiling an empty `Q`. -/
inductive Err where
  | invalidArgument
  | typeError
  | attributeError
deriving DecidableEq

/-- Python `datetime` object: calendar fields plus an optional fixed UTC
offset in minutes standing for `tzinfo` (`tzOffsetMinutes.isSome` models the
truthiness test `raw.tzinfo`). -/
structure PyDatetime where
  year : Nat
  month : Nat
  day : Nat
  hour : Nat
  minute : Nat
  second : Nat
  microsecond : Nat
  tzOffsetMinutes : Option Int
deriving DecidableEq

/-- Python `timedelta` in its normalized representation: `days` may be
negative while `0 ≤ seconds < 86400` and `0 ≤ microseconds < 10^6`. -/
structure PyTimedelta where
  days : Int
  seconds : Nat
  microseconds : Nat
deriving DecidableEq

/-- Zero-pad a natural number to `width` digits (as `%0Nd` does). -/
def padNum (width : Nat) (n : Nat) : String :=
  let s := toString n
  String.mk (List.replicate (width - s.length) '0') ++ s

/-- `datetime.strftime('%Y-%m-%dT%H:%M:%S.%f')`: naive-format pattern used by
`Value.__init__` for zone-aware timestamps (no offset is printed; `%f` is the
six-digit microsecond field; `%Y` is modelled as four-digit zero-padded). -/
def PyDatetime.strftimeIsoT (d : PyDatetime) : String :=
  padNum 4 d.year ++ "-" ++ padNum 2 d.month ++ "-" ++ padNum 2 d.day ++ "T" ++
    padNum 2 d.hour ++ ":" ++ padNum 2 d.minute ++ ":" ++ padNum 2 d.second ++
    "." ++ padNum 6 d.microsecond

/-- UTC-offset suffix `±HH:MM` printed by `datetime.isoformat` on aware
datetimes. -/
def tzOffsetStr (off : Int) : String :=
  (if off < 0 then "-" else "+") ++
    padNum 2 (off.natAbs / 60) ++ ":" ++ padNum 2 (off.natAbs % 60)

/-- `datetime.isoformat(sep)`: `YYYY-MM-DD{sep}HH:MM:SS`, with `.ffffff`
appended iff the microsecond field is nonzero, and the UTC offset appended iff
the datetime is aware. -/
def PyDatetime.isoformat (sep : Char) (d : PyDatetime) : String :=
  padNum 4 d.year ++ "-" ++ padNum 2 d.month ++ "-" ++ padNum 2 d.day ++
    sep.toString ++
    padNum 2 d.hour ++ ":" ++ padNum 2 d.minute ++ ":" ++ padNum 2 d.second ++
    (if d.microsecond ≠ 0 then "." ++ padNum 6 d.microsecond else "") ++
    (match d.tzOffsetMinutes with
     | some off => tzOffsetStr off
     | none => "")

/-- Python `'{:+d}'.format(n)`: decimal with a mandatory sign. -/
def signedIntStr (n : Int) : String :=
  if n < 0 then toString n else "+" ++ toString n

/-- Python `str(timedelta)`: `[D day(s), ]H:MM:SS[.ffffff]`. -/
def PyTimedelta.pyStr (t : PyTimedelta) : String :=
  let mm := t.seconds / 60
  let ss := t.seconds % 60
  let hh := mm / 60
  let m2 := mm % 60
  let s := toString hh ++ ":" ++ padNum 2 m2 ++ ":" ++ padNum 2 ss
  let s := if t.days ≠ 0 then
      toString t.days ++ " day" ++ (if t.days.natAbs ≠ 1 then "s" else "") ++ ", " ++ s
    else s
  if t.microseconds ≠ 0 then s ++ "." ++ padNum 6 t.microseconds else s

/-- Raw objects a `Value` can wrap: strings, ints, floats (carrying the
decimal representation `str(float)` would print), datetimes, timedeltas, or an
already-constructed `Value` object (`val raw safe` stands for that object's
two attributes). -/
inductive RawV where
  | str (s : String)
  | int (n : Int)
  | float (repr : String)
  | dt (d : PyDatetime)
  | td (t : PyTimedelta)
  | val (raw : RawV) (safe : Bool)
deriving DecidableEq

/-- A `Value` object after `__init__`: its `raw` and `safe` attributes. -/
structure Value where
  raw : RawV
  safe : Bool
deriving DecidableEq

/-- The reserved characters of `Value.ESCAPE_RE`, in the order of the
character class `[ &|+\\-!(){}[\]*^"~?:]`. -/
def reservedChars : List Char :=
  [' ', '&', '|', '+', '\\', '-', '!', '(', ')', '\x7b', '\x7d', '[', ']',
   '*', '^', '"', '~', '?', ':']

/-- `Value.ESCAPE_RE.sub(r'\\\g<char>', ·)` as a left-to-right scan: a
reserved character is prefixed with a backslash unless the character before it
in the *original* string is a backslash (the negative lookbehind `(?<!\\)`).
`prev` is the previous original character. -/
def escapeAux (prev : Option Char) : List Char → List Char
  | [] => []
  | c :: rest =>
    if c ∈ reservedChars ∧ prev ≠ some '\\' then
      '\\' :: c :: escapeAux (some c) rest
    else
      c :: escapeAux (some c) rest

/-- `Value._escape`. -/
def Value.escapeStr (s : String) : String :=
  String.mk (escapeAux none s.toList)

/-- Python `str(raw)` for the raw objects we model.  For a nested `Value`
object this is `Value.__str__`, i.e. the raw string escaped unless safe. -/
def RawV.pyStr : RawV → String
  | .str s => s
  | .int n => toString n
  | .float r => r
  | .dt d => d.isoformat ' '
  | .td t => t.pyStr
  | .val raw true => raw.pyStr
  | .val raw false => Value.escapeStr raw.pyStr

/-- The template `Value.TIMEDELTA_FORMAT =
`NOW{days:+d}DAYS{secs:+d}SECONDS{mills:+d}MILLISECONDS``. -/
def TIMEDELTA_FORMAT (days secs mills : Int) : String :=
  "NOW" ++ signedIntStr days ++ "DAYS" ++ signedIntStr secs ++ "SECONDS" ++
    signedIntStr mills ++ "MILLISECONDS"

/-- `Value.__init__(raw, safe)`: a datetime that was not requested safe is
stored as the quoted ISO string suffixed with `Z` (strftime pattern when
zone-aware, `isoformat` when naive) and marked safe; a timedelta that was not
requested safe is stored as `NOW…` Date-Math text (exactly `NOW` for the zero
delta) and marked safe; anything else is stored as passed. -/
def Value.mk' (raw : RawV) (safe : Bool) : Value :=
  match raw, safe with
  | .dt d, false =>
    { raw := .str ("\"" ++
        (if d.tzOffsetMinutes.isSome then d.strftimeIsoT else d.isoformat 'T') ++
        "Z\""),
      safe := true }
  | .td t, false =>
    { raw := .str (if t = ⟨0, 0, 0⟩ then "NOW"
        else TIMEDELTA_FORMAT t.days (t.seconds : Int) ((t.microseconds / 1000 : Nat) : Int)),
      safe := true }
  | _, _ => { raw := raw, safe := safe }

/-- `Value.__str__`: `str(self.raw)` if safe else `self._escape(str(self.raw))`. -/
def Value.render (v : Value) : String :=
  if v.safe then v.raw.pyStr else Value.escapeStr v.raw.pyStr

/-- The module constant `ANY = Value("*", safe=True)`. -/
def ANY : Value := Value.mk' (.str "*") true

/-- `Range.BOUNDARY_BRACKETS` after the `update` that also maps every bracket
value to itself: the six named tokens plus the four canonical bracket
strings. -/
def BOUNDARY_BRACKETS : List (String × (Char × Char)) :=
  [("exclusive", ('\x7b', '\x7d')),
   ("inclusive", ('[', ']')),
   ("ee", ('\x7b', '\x7d')),
   ("ei", ('\x7b', ']')),
   ("ii", ('[', ']')),
   ("ie", ('[', '\x7d')),
   ("\x7b\x7d", ('\x7b', '\x7d')),
   ("[]", ('[', ']')),
   ("\x7b]", ('\x7b', ']')),
   ("[\x7d", ('[', '\x7d'))]

/-- `self.BOUNDARY_BRACKETS[boundaries]` (`none` models the `KeyError`). -/
def boundaryLookup (tok : String) : Option (Char × Char) :=
  (BOUNDARY_BRACKETS.find? (fun p => p.1 = tok)).map (·.2)

/-- An argument that is either an existing `Value` object or a raw object,
discriminated by `isinstance(·, Value)`. -/
inductive VOrRaw where
  | ofVal (v : Value)
  | ofRaw (r : RawV)

/-- A `Range` object after `__init__`: its `from_` and `to` `Value`
attributes plus its own `Value` part set by `super().__init__`. -/
structure RangeObj where
  from_ : Value
  to_ : Value
  val : Value
deriving DecidableEq

/-- `from_ if isinstance(from_, Value) else Value(from_, safe or False)`. -/
def coerceEndpoint (e : VOrRaw) (safe : Option Bool) : Value :=
  match e with
  | .ofVal v => v
  | .ofRaw r => Value.mk' r (safe.getD false)

/-- `Range.__init__(from_, to, safe=None, boundaries='inclusive')`: resolve
the brackets (unknown token raises `ValueError`), coerce both endpoints, force
both endpoints' `safe` flag when `safe` was given explicitly, then initialize
the underlying `Value` with the bracketed `… TO …` string marked safe. -/
def Range.mk' (from_ toArg : VOrRaw) (safe : Option Bool) (boundaries : String) :
    Except Err RangeObj :=
  match boundaryLookup boundaries with
  | none => .error .invalidArgument
  | some brackets =>
    let f := coerceEndpoint from_ safe
    let t := coerceEndpoint toArg safe
    let f := match safe with
      | some b => { f with safe := b }
      | none => f
    let t := match safe with
      | some b => { t with safe := b }
      | none => t
    .ok { from_ := f, to_ := t,
          val := Value.mk'
            (.str (brackets.1.toString ++ f.render ++ " TO " ++ t.render ++
              brackets.2.toString))
            true }

/-- `str(Range)` is `Value.__str__` on the underlying value. -/
def RangeObj.render (r : RangeObj) : String :=
  r.val.render

/-- The module constant `SET = Range(ANY, ANY)`. -/
def SET : Except Err RangeObj := Range.mk' (.ofVal ANY) (.ofVal ANY) none "inclusive"

/-- A `Proximity` object: its `distance` attribute plus the `Value` part set
by `super().__init__(raw, safe)`. -/
structure ProximityObj where
  value : Value
  distance : Int
deriving DecidableEq

/-- `Proximity.__init__(raw, distance, safe=False)`. -/
def Proximity.mk' (raw : RawV) (distance : Int) (safe : Bool) : ProximityObj :=
  { value := Value.mk' raw safe, distance := distance }

/-- `Proximity.__str__`: `'"{val}"~{distance:d}'` with `val` rendered by
`Value.__str__`. -/
def ProximityObj.render (p : ProximityObj) : String :=
  "\"" ++ p.value.render ++ "\"~" ++ toString p.distance

/-- `isinstance(factor, (int, float))`, the boost-factor type test. -/
def RawV.isNumericFactor : RawV → Bool
  | .int _ => true
  | .float _ => true
  | _ => false

/-- `QOperator.and_`: join with ` AND `. -/
def QOperator.and_ (qsList : List String) : String :=
  " AND ".intercalate qsList

/-- `QOperator.or_`: join with ` OR `. -/
def QOperator.or_ (qsList : List String) : String :=
  " OR ".intercalate qsList

/-- `QOperator.not_`: `ValueError` unless exactly one operand, else `!{qs}`. -/
def QOperator.not_ (qsList : List String) : Except Err String :=
  match qsList with
  | [qs] => .ok ("!" ++ qs)
  | _ => .error .invalidArgument

/-- `QOperator.boost`: `ValueError` unless exactly one operand (checked
first), then `TypeError` unless the factor is an int or a float, else
`{qs}^{factor}`. -/
def QOperator.boost (qsList : List String) (factor : RawV) : Except Err String :=
  match qsList with
  | [qs] =>
    if factor.isNumericFactor then .ok (qs ++ "^" ++ factor.pyStr)
    else .error .typeError
  | _ => .error .invalidArgument

/-- Modelled from the spec: `QOperator.constant_score` is absent from the
provided source (only the tests call it); spec §4.4 defines CONSTANT_SCORE as
"same arity/type rule as BOOST; renders `\x7bchild\x7d^=\x7bfactor\x7d`". -/
def QOperator.constant_score (qsList : List String) (factor : RawV) : Except Err String :=
  match qsList with
  | [qs] =>
    if factor.isNumericFactor then .ok (qs ++ "^=" ++ factor.pyStr)
    else .error .typeError
  | _ => .error .invalidArgument

/-- The combinators a `Q` node can hold: `QOperator.and_`/`or_`/`not_`, and
the factor-binding partial applications of `boost` and `constant_score`. -/
inductive Operator where
  | andOp
  | orOp
  | notOp
  | boostOp (factor : RawV)
  | constantScoreOp (factor : RawV)
deriving DecidableEq

/-- `self._operator(qs_list)`: invoke the stored combinator. -/
def Operator.apply : Operator → List String → Except Err String
  | .andOp, l => .ok (QOperator.and_ l)
  | .orOp, l => .ok (QOperator.or_ l)
  | .notOp, l => QOperator.not_ l
  | .boostOp f, l => QOperator.boost l f
  | .constantScoreOp f, l => QOperator.constant_score l f

/-- A `Q` object: a leaf with `field`/`query` attributes, an internal node
with `_children`/`_operator`, or the empty node built by `Q()` (which has
neither and fails on compilation). -/
inductive QNode where
  | leaf (field : String) (query : Value)
  | node (op : Operator) (children : List QNode)
  | empty

mutual

/-- `Q.compile(extra_parenthesis=False)`: a leaf renders as
`{field}:{query}`; a node compiles every child with extra parenthesis, joins
them with the stored combinator and parenthesizes the result iff
`extra_parenthesis`; an object without children and without a `field`
attribute (the empty `Q`, or a node whose falsy `_children` is `[]`) raises
`AttributeError`. -/
def QNode.compile (extraParenthesis : Bool) : QNode → Except Err String
  | .leaf field query => .ok (field ++ ":" ++ query.render)
  | .node _ [] => .error .attributeError
  | .node op (c :: cs) =>
    match QNode.compileList (c :: cs) with
    | .error e => .error e
    | .ok qsList =>
      match op.apply qsList with
      | .error e => .error e
      | .ok queryString =>
        .ok (if extraParenthesis then "(" ++ queryString ++ ")" else queryString)
  | .empty => .error .attributeError

/-- The list comprehension `[child.compile(extra_parenthesis=True) for child
in self._children]`. -/
def QNode.compileList : List QNode → Except Err (List String)
  | [] => .ok []
  | q :: qs =>
    match q.compile true with
    | .error e => .error e
    | .ok s =>
      match QNode.compileList qs with
      | .error e => .error e
      | .ok rest => .ok (s :: rest)

end

/-- `if not isinstance(self.query, Value): self.query = Value(self.query)`. -/
def coerceQueryValue (e : VOrRaw) : Value :=
  match e with
  | .ofVal v => v
  | .ofRaw r => Value.mk' r false

/-- `Q.__init__(children=None, op=QOperator.and_, **kwargs)`: both children
and kwargs raise `ValueError`; one kwarg builds a leaf (coercing the query to
a `Value`); several kwargs build a node over per-kwarg leaves with the given
operator; children build a node; nothing builds the empty object. -/
def Q.mk' (children : List QNode) (op : Operator)
    (kwargs : List (String × VOrRaw)) : Except Err QNode :=
  if !kwargs.isEmpty && !children.isEmpty then
    .error .invalidArgument
  else match kwargs with
    | [(field, query)] => .ok (.leaf field (coerceQueryValue query))
    | [] => if !children.isEmpty then .ok (.node op children) else .ok .empty
    | _ => .ok (.node op (kwargs.map fun p => .leaf p.1 (coerceQueryValue p.2)))

/-- `Q.__and__`. -/
def QNode.andQ (q other : QNode) : QNode := .node .andOp [q, other]

/-- `Q.__or__`. -/
def QNode.orQ (q other : QNode) : QNode := .node .orOp [q, other]

/-- `Q.__invert__`. -/
def QNode.invert (q : QNode) : QNode := .node .notOp [q]

/-- `Q.__xor__`: boost bound to the factor via `partial`. -/
def QNode.boostQ (q : QNode) (factor : RawV) : QNode :=
  .node (.boostOp factor) [q]

/-- Modelled from the spec: the `Q.constant_score(factor)` builder is absent
from the provided source (only the tests call it); spec §4.5 defines it as
"same, combinator CONSTANT_SCORE bound to `factor`", i.e. a new single-child
node. -/
def QNode.constantScore (q : QNode) (factor : RawV) : QNode :=
  .node (.constantScoreOp factor) [q]

/-!
Explicit-store model.  Python `Value` objects live on a heap and
`Range.__init__` assigns `self.from_.safe = safe` / `self.to.safe = safe` on
objects that may pre-exist.  `Store` is the heap of constructed `Value`
objects, addressed by allocation index; each method of the source is
translated statement by statement, threading the store.  Methods that contain
no attribute assignment (`__str__`, `compile`, the combinators) return the
store they received.
-/

/-- Heap of constructed `Value` objects. -/
abbrev Store := List Value

/-- Object address in the store. -/
abbrev Addr := Nat

/-- Allocate a new `Value` object. -/
def Store.alloc (σ : Store) (v : Value) : Store × Addr :=
  (σ ++ [v], σ.length)

/-- `Value.__init__` on the heap. -/
def valueInitS (σ : Store) (raw : RawV) (safe : Bool) : Store × Addr :=
  σ.alloc (Value.mk' raw safe)

/-- `Value.__str__` on the heap: reads the object, assigns nothing. -/
def valueStrS (σ : Store) (a : Addr) : Store × Option String :=
  (σ, (σ.get? a).map Value.render)

/-- The attribute assignment `obj.safe = b`. -/
def setSafeS (σ : Store) (a : Addr) (b : Bool) : Store :=
  match σ.get? a with
  | some v => σ.set a { v with safe := b }
  | none => σ

/-- A constructor argument on the heap: an existing object or a raw value. -/
def resolveEndpointS (σ : Store) (e : Addr ⊕ RawV) (safe : Option Bool) :
    Store × Addr :=
  match e with
  | .inl a => (σ, a)
  | .inr r => valueInitS σ r (safe.getD false)

/-- `Range.__init__` on the heap: coerce both endpoints (allocating a fresh
`Value` for a raw argument), then — only when `safe` was given explicitly —
assign `self.from_.safe = safe` and `self.to.safe = safe`, then allocate the
underlying `Value` of the range itself.  Returns the final store and the
addresses of `from_`, `to` and the range's own value. -/
def rangeInitS (σ : Store) (from_ toArg : Addr ⊕ RawV) (safe : Option Bool)
    (boundaries : String) : Except Err (Store × Addr × Addr × Addr) :=
  match boundaryLookup boundaries with
  | none => .error .invalidArgument
  | some brackets =>
    let p1 := resolveEndpointS σ from_ safe
    let p2 := resolveEndpointS p1.1 toArg safe
    let σ3 := match safe with
      | some b => setSafeS (setSafeS p2.1 p1.2 b) p2.2 b
      | none => p2.1
    let fStr := ((σ3.get? p1.2).map Value.render).getD ""
    let tStr := ((σ3.get? p2.2).map Value.render).getD ""
    let p4 := valueInitS σ3
      (.str (brackets.1.toString ++ fStr ++ " TO " ++ tStr ++ brackets.2.toString))
      true
    .ok (p4.1, p1.2, p2.2, p4.2)

/-- A `Q` tree whose leaves reference `Value` objects on the heap. -/
inductive QNodeS where
  | leaf (field : String) (query : Addr)
  | node (op : Operator) (children : List QNodeS)
  | empty

mutual

/-- `Q.compile` on the heap: reads leaf values via `valueStrS`, assigns
nothing, and threads the store through the recursion. -/
def compileS (σ : Store) (extraParenthesis : Bool) :
    QNodeS → Store × Except Err String
  | .leaf field query =>
    let p := valueStrS σ query
    (p.1, match p.2 with
      | some s => .ok (field ++ ":" ++ s)
      | none => .error .attributeError)
  | .node _ [] => (σ, .error .attributeError)
  | .node op (c :: cs) =>
    let p := compileListS σ (c :: cs)
    (p.1, match p.2 with
      | .ok qsList =>
        (op.apply qsList).map
          (fun s => if extraParenthesis then "(" ++ s ++ ")" else s)
      | .error e => .error e)
  | .empty => (σ, .error .attributeError)

/-- Child compilation list on the heap. -/
def compileListS (σ : Store) : List QNodeS → Store × Except Err (List String)
  | [] => (σ, .ok [])
  | q :: qs =>
    let p := compileS σ true q
    match p.2 with
    | .error e => (p.1, .error e)
    | .ok s =>
      let p2 := compileListS p.1 qs
      (p2.1, match p2.2 with
        | .error e => .error e
        | .ok rest => .ok (s :: rest))

end

/-!
Spec-side definitions.  `specEscape` restates the specification's description
of escaping — every position holding a reserved character is prefixed with a
single backslash, except positions whose predecessor in the input is a
backslash — as a per-position transformation (each character is paired with
its predecessor up front), to be compared with the scanning `escapeAux`.
-/

/-- Escaping as the spec describes it, position by position: pair every
character with its predecessor and prefix a backslash exactly when the
character is reserved and the predecessor is not a backslash. -/
def specEscape (s : List Char) : List Char :=
  ((none :: s.map some).zip s).flatMap fun p =>
    if p.2 ∈ reservedChars ∧ p.1 ≠ some '\\' then ['\\', p.2] else [p.2]

/-- The string does not end in an unescaped backslash: its trailing run of
backslashes has even length. -/
def noTrailingUnescapedBackslash (s : String) : Prop :=
  (s.toList.reverse.takeWhile (· = '\\')).length % 2 = 0

instance (s : String) : Decidable (noTrailingUnescapedBackslash s) :=
  inferInstanceAs (Decidable (_ = _))

/-- The query `(Q(a="b") & Q(c="d")) ^ 1 | Q(e="f") ^ 2` built with the
operator overloads. -/
def qExampleC2 : QNode :=
  QNode.orQ
    (QNode.boostQ
      (QNode.andQ (.leaf "a" (Value.mk' (.str "b") false))
        (.leaf "c" (Value.mk' (.str "d") false)))
      (.int 1))
    (QNode.boostQ (.leaf "e" (Value.mk' (.str "f") false)) (.int 2))


/-- The scanning substitution of `ESCAPE_RE` agrees, for any starting
lookbehind character, with the per-position description: each character is
escaped exactly when it is reserved and its predecessor in the original
string is not a backslash. -/
theorem escapeAux_eq_pairs (l : List Char) : ∀ pre : Option Char,
    escapeAux pre l =
      ((pre :: l.map some).zip l).flatMap fun p =>
        if p.2 ∈ reservedChars ∧ p.1 ≠ some '\\' then ['\\', p.2] else [p.2] := by
  induction l with
  | nil => intro pre; rfl
  | cons c rest ih =>
    intro pre
    by_cases h : c ∈ reservedChars ∧ pre ≠ some '\\' <;>
      simp [escapeAux, h, ih (some c)]

/-- C1: for every string without a trailing unescaped backslash, rendering
`Value(s)` (safe false) escapes every occurrence of a reserved character
exactly once by prefixing a single backslash, skipping occurrences whose
predecessor in the original string is a backslash, in one left-to-right pass
(`specEscape` is that per-position description); and for every string,
rendering `Value(s, safe=True)` returns the string unchanged. -/
theorem c1_value_escaping :
    (∀ s : String, (Value.mk' (.str s) true).render = s) ∧
    (∀ s : String, noTrailingUnescapedBackslash s →
      (Value.mk' (.str s) false).render = String.mk (specEscape s.toList)) := by
  constructor
  · intro s; rfl
  · intro s _
    show Value.escapeStr s = String.mk (specEscape s.toList)
    unfold Value.escapeStr specEscape
    rw [escapeAux_eq_pairs]

/-- Witness for C1 at `"foo [] bar"`. -/
theorem c1_value_escaping_witness :
    (Value.mk' (.str "foo [] bar") true).render = "foo [] bar" ∧
    (Value.mk' (.str "foo [] bar") false).render =
      String.mk (specEscape "foo [] bar".toList) :=
  ⟨c1_value_escaping.1 "foo [] bar",
   c1_value_escaping.2 "foo [] bar" (by decide)⟩

/-- C4: a datetime raw value not requested safe is stored as its quoted ISO
string suffixed `Z` (strftime naive pattern when zone-aware, `isoformat`
when naive) with the safe flag set; a timedelta raw value not requested safe
is stored as `NOW{±days}DAYS{±seconds}SECONDS{±milliseconds}MILLISECONDS`
with per-unit signs (exactly `NOW` for the zero duration) with the safe flag
set; `Value(timedelta(days=1))` renders `NOW+1DAYS+0SECONDS+0MILLISECONDS`
and `Value(timedelta(days=-1))` renders `NOW-1DAYS+0SECONDS+0MILLISECONDS`. -/
theorem c4_datetime_timedelta_translation :
    (∀ d : PyDatetime, Value.mk' (.dt d) false =
      { raw := .str ("\"" ++
          (if d.tzOffsetMinutes.isSome then d.strftimeIsoT else d.isoformat 'T') ++
          "Z\""),
        safe := true }) ∧
    (∀ t : PyTimedelta, Value.mk' (.td t) false =
      { raw := .str (if t = ⟨0, 0, 0⟩ then "NOW"
          else "NOW" ++ signedIntStr t.days ++ "DAYS" ++
            signedIntStr (t.seconds : Int) ++ "SECONDS" ++
            signedIntStr ((t.microseconds / 1000 : Nat) : Int) ++ "MILLISECONDS"),
        safe := true }) ∧
    (Value.mk' (.td ⟨1, 0, 0⟩) false).render = "NOW+1DAYS+0SECONDS+0MILLISECONDS" ∧
    (Value.mk' (.td ⟨-1, 0, 0⟩) false).render = "NOW-1DAYS+0SECONDS+0MILLISECONDS" :=
  ⟨fun _ => rfl, fun _ => rfl, rfl, rfl⟩

/-- C8: a proximity search renders as the double-quoted inner value (the
inner value rendered by `Value.__str__`: escaped when not safe, verbatim when
safe) followed by `~` and the distance; negative or zero distances are passed
through unrejected; `Proximity("foo bar", 12)` renders `"foo\ bar"~12` and
with safe it renders `"foo bar"~12`. -/
theorem c8_proximity_rendering :
    (∀ (raw : RawV) (safe : Bool) (distance : Int),
      (Proximity.mk' raw distance safe).render =
        "\"" ++ (Value.mk' raw safe).render ++ "\"~" ++ toString distance) ∧
    (∀ (s : String) (d : Int), (Proximity.mk' (.str s) d false).render =
      "\"" ++ Value.escapeStr s ++ "\"~" ++ toString d) ∧
    (∀ (s : String) (d : Int), (Proximity.mk' (.str s) d true).render =
      "\"" ++ s ++ "\"~" ++ toString d) ∧
    (Proximity.mk' (.str "foo bar") 12 false).render = "\"foo\\ bar\"~12" ∧
    (Proximity.mk' (.str "foo bar") 12 true).render = "\"foo bar\"~12" ∧
    (Proximity.mk' (.str "x") (-3) false).render = "\"x\"~-3" ∧
    (Proximity.mk' (.str "x") 0 true).render = "\"x\"~0" :=
  ⟨fun _ _ _ => rfl, fun _ _ => rfl, fun _ _ => rfl, rfl, rfl, rfl, rfl⟩

/-- C2: compilation renders a leaf as `field:value` with no parenthesis even
under `extra_parenthesis`; a non-leaf node compiled with `extra_parenthesis`
yields exactly one parenthesis pair around its plain compilation, and the
root is compiled without `extra_parenthesis` — so parentheses appear exactly
around every non-leaf node except the root, and the example
`(Q(a="b") & Q(c="d")) ^ 1 | Q(e="f") ^ 2` compiles to
`((a:b AND c:d)^1) OR (e:f^2)`. -/
theorem c2_compile_parenthesization :
    qExampleC2.compile false = .ok "((a:b AND c:d)^1) OR (e:f^2)" ∧
    (∀ f v, QNode.compile false (.leaf f v) = .ok (f ++ ":" ++ v.render)) ∧
    (∀ f v, QNode.compile true (.leaf f v) = QNode.compile false (.leaf f v)) ∧
    (∀ op cs, cs ≠ [] →
      QNode.compile true (.node op cs) =
        (QNode.compile false (.node op cs)).map (fun s => "(" ++ s ++ ")")) := by
  refine ⟨rfl, fun _ _ => rfl, fun _ _ => rfl, ?_⟩
  intro op cs h
  cases cs with
  | nil => exact absurd rfl h
  | cons c cs' =>
    cases h1 : QNode.compileList (c :: cs') with
    | error e => simp [QNode.compile, h1, Except.map]
    | ok qsList =>
      cases h2 : op.apply qsList with
      | error e => simp [QNode.compile, h1, h2, Except.map]
      | ok s => simp [QNode.compile, h1, h2, Except.map]

/-- Witness for C2 at a two-child AND node. -/
theorem c2_compile_parenthesization_witness :
    QNode.compile true
        (.node .andOp [.leaf "a" (Value.mk' (.str "b") false),
          .leaf "c" (Value.mk' (.str "d") false)]) =
      (QNode.compile false
        (.node .andOp [.leaf "a" (Value.mk' (.str "b") false),
          .leaf "c" (Value.mk' (.str "d") false)])).map
        (fun s => "(" ++ s ++ ")") :=
  c2_compile_parenthesization.2.2.2 .andOp
    [.leaf "a" (Value.mk' (.str "b") false), .leaf "c" (Value.mk' (.str "d") false)]
    (List.cons_ne_nil _ _)

/-- C6: `QOperator.not_` fails with InvalidArgument exactly when not given
exactly one compiled child, and renders `!{child}` on a single child;
`QOperator.boost` fails with InvalidArgument exactly when not given exactly
one child (the arity check runs first), fails with a TypeError — given one
child — exactly when the factor is neither int nor float, and renders
`{child}^{factor}` otherwise. -/
theorem c6_not_boost_contracts :
    (∀ qsList, QOperator.not_ qsList = .error .invalidArgument ↔ qsList.length ≠ 1) ∧
    (∀ qs, QOperator.not_ [qs] = .ok ("!" ++ qs)) ∧
    (∀ qsList factor,
      QOperator.boost qsList factor = .error .invalidArgument ↔ qsList.length ≠ 1) ∧
    (∀ qsList factor, qsList.length = 1 →
      (QOperator.boost qsList factor = .error .typeError ↔
        factor.isNumericFactor = false)) ∧
    (∀ qs factor, factor.isNumericFactor = true →
      QOperator.boost [qs] factor = .ok (qs ++ "^" ++ factor.pyStr)) := by
  refine ⟨?_, fun _ => rfl, ?_, ?_, ?_⟩
  · intro qsList
    match qsList with
    | [] => simp [QOperator.not_]
    | [q] => simp [QOperator.not_]
    | q :: q' :: rest => simp [QOperator.not_]
  · intro qsList factor
    match qsList with
    | [] => simp [QOperator.boost]
    | [q] =>
      cases hf : factor.isNumericFactor <;> simp [QOperator.boost, hf]
    | q :: q' :: rest => simp [QOperator.boost]
  · intro qsList factor h
    match qsList, h with
    | [q], _ =>
      cases hf : factor.isNumericFactor <;> simp [QOperator.boost, hf]
  · intro qs factor hf
    simp [QOperator.boost, hf]

/-- Witness for C6 with `["x"]` and an int factor. -/
theorem c6_not_boost_contracts_witness :
    (QOperator.boost ["x"] (.str "nan") = .error .typeError ↔
      RawV.isNumericFactor (.str "nan") = false) ∧
    QOperator.boost ["x"] (.int 2) = .ok "x^2" :=
  ⟨c6_not_boost_contracts.2.2.2.1 ["x"] (.str "nan") rfl,
   c6_not_boost_contracts.2.2.2.2 "x" (.int 2) rfl⟩

/-- C7 (modelled from the spec, see `QOperator.constant_score` and
`QNode.constantScore`): CONSTANT_SCORE fails in exactly the situations BOOST
fails in with the same errors (one-child arity, int-or-float factor), renders
`{child}^={factor}`, and `Q.constant_score(factor)` builds a single-child
node bound to it; `Q(foo="bar").constant_score(2)` compiles to
`foo:bar^=2`. -/
theorem c7_constant_score :
    (∀ qsList factor e, QOperator.constant_score qsList factor = .error e ↔
      QOperator.boost qsList factor = .error e) ∧
    (∀ qs factor, factor.isNumericFactor = true →
      QOperator.constant_score [qs] factor = .ok (qs ++ "^=" ++ factor.pyStr)) ∧
    (∀ q factor, QNode.constantScore q factor = .node (.constantScoreOp factor) [q]) ∧
    (QNode.constantScore (.leaf "foo" (Value.mk' (.str "bar") false)) (.int 2)).compile
        false = .ok "foo:bar^=2" := by
  refine ⟨?_, ?_, fun _ _ => rfl, rfl⟩
  · intro qsList factor e
    match qsList with
    | [] => simp [QOperator.constant_score, QOperator.boost]
    | [q] =>
      cases hf : factor.isNumericFactor <;>
        simp [QOperator.constant_score, QOperator.boost, hf]
    | q :: q' :: rest => simp [QOperator.constant_score, QOperator.boost]
  · intro qs factor hf
    simp [QOperator.constant_score, hf]

/-- Witness for C7 with one child and an int factor. -/
theorem c7_constant_score_witness :
    QOperator.constant_score ["x"] (.int 3) = .ok "x^=3" :=
  c7_constant_score.2.1 "x" (.int 3) rfl

/-- Counterexample to C3's universal identity
`str(Range(a, b)) = "[" + str(Value(a)) + " TO " + str(Value(b)) + "]"`:
at `a = b = ANY` (the module's own `Value("*", safe=True)`), the range
renders `[* TO *]`, while wrapping `ANY` again as `Value(ANY)` (safe false)
re-escapes the star, so the right-hand side is `[\* TO \*]`. -/
theorem c3_range_identity_counterexample :
    (Range.mk' (.ofVal ANY) (.ofVal ANY) none "inclusive").map RangeObj.render =
      .ok "[* TO *]" ∧
    "[" ++ (Value.mk' (.val (.str "*") true) false).render ++ " TO " ++
        (Value.mk' (.val (.str "*") true) false).render ++ "]" = "[\\* TO \\*]" ∧
    ("[* TO *]" : String) ≠ "[\\* TO \\*]" := by
  refine ⟨rfl, rfl, ?_⟩
  decide

/-- C3 (amended: the endpoint identity holds for endpoints that are not
already `Value` instances): every boundaries token of the closed set maps to
its bracket pair (named tokens and canonical bracket strings alike); every
successfully constructed range is itself marked safe and renders as the
mapped opening bracket, the rendered `from_` value, ` TO `, the rendered
`to` value and the mapped closing bracket; and for default boundaries and
raw (non-`Value`) endpoints,
`str(Range(a, b)) = "[" + str(Value(a)) + " TO " + str(Value(b)) + "]"`. -/
theorem c3_range_rendering :
    (boundaryLookup "inclusive" = some ('[', ']') ∧
     boundaryLookup "ii" = some ('[', ']') ∧
     boundaryLookup "[]" = some ('[', ']') ∧
     boundaryLookup "exclusive" = some ('\x7b', '\x7d') ∧
     boundaryLookup "ee" = some ('\x7b', '\x7d') ∧
     boundaryLookup "\x7b\x7d" = some ('\x7b', '\x7d') ∧
     boundaryLookup "ei" = some ('\x7b', ']') ∧
     boundaryLookup "\x7b]" = some ('\x7b', ']') ∧
     boundaryLookup "ie" = some ('[', '\x7d') ∧
     boundaryLookup "[\x7d" = some ('[', '\x7d')) ∧
    (∀ f t s tok r, Range.mk' f t s tok = .ok r →
      r.val.safe = true ∧
      ∃ bk, boundaryLookup tok = some bk ∧
        r.render = bk.1.toString ++ r.from_.render ++ " TO " ++ r.to_.render ++
          bk.2.toString) ∧
    (∀ a b : RawV,
      (Range.mk' (.ofRaw a) (.ofRaw b) none "inclusive").map RangeObj.render =
        .ok ("[" ++ (Value.mk' a false).render ++ " TO " ++
          (Value.mk' b false).render ++ "]")) := by
  refine ⟨⟨rfl, rfl, rfl, rfl, rfl, rfl, rfl, rfl, rfl, rfl⟩, ?_, ?_⟩
  · intro f t s tok r h
    unfold Range.mk' at h
    cases hb : boundaryLookup tok <;> rw [hb] at h
    · exact absurd h (by simp)
    · simp only [Except.ok.injEq] at h
      subst h
      exact ⟨rfl, _, rfl, rfl⟩
  · intro a b
    rfl

/-- Witness for C3 at `Range(0, 1, boundaries='ei')`. -/
theorem c3_range_rendering_witness :
    (RangeObj.mk ⟨.int 0, false⟩ ⟨.int 1, false⟩ ⟨.str "\x7b0 TO 1]", true⟩).val.safe =
      true ∧
    ∃ bk, boundaryLookup "ei" = some bk ∧
      (RangeObj.mk ⟨.int 0, false⟩ ⟨.int 1, false⟩ ⟨.str "\x7b0 TO 1]", true⟩).render =
        bk.1.toString ++
          (Value.mk ( .int 0) false).render ++ " TO " ++
          (Value.mk ( .int 1) false).render ++ bk.2.toString :=
  c3_range_rendering.2.1 (.ofRaw (.int 0)) (.ofRaw (.int 1)) none "ei"
    (RangeObj.mk ⟨.int 0, false⟩ ⟨.int 1, false⟩ ⟨.str "\x7b0 TO 1]", true⟩) rfl

/-- C5: the usage errors — constructing a `Q` with both children and
keywords, invoking `not_`/`boost` with other than exactly one operand, and a
boundaries token outside the allowed set — are InvalidArgument failures of
the very call that violates the contract (the constructors return the error
instead of any partially-built node); in particular
`Range(1, 2, boundaries='<>')` fails with InvalidArgument. -/
theorem c5_usage_errors :
    (∀ children op kwargs, children ≠ [] → kwargs ≠ [] →
      Q.mk' children op kwargs = .error .invalidArgument) ∧
    (∀ qsList, qsList.length ≠ 1 →
      QOperator.not_ qsList = .error .invalidArgument) ∧
    (∀ qsList factor, qsList.length ≠ 1 →
      QOperator.boost qsList factor = .error .invalidArgument) ∧
    (∀ f t s tok, boundaryLookup tok = none →
      Range.mk' f t s tok = .error .invalidArgument) ∧
    Range.mk' (.ofRaw (.int 1)) (.ofRaw (.int 2)) none "<>" = .error .invalidArgument := by
  refine ⟨?_, ?_, ?_, ?_, rfl⟩
  · intro children op kwargs hc hk
    cases children with
    | nil => exact absurd rfl hc
    | cons c cs =>
      cases kwargs with
      | nil => exact absurd rfl hk
      | cons k ks => rfl
  · intro qsList h
    match qsList, h with
    | [], _ => rfl
    | q :: q' :: rest, _ => rfl
  · intro qsList factor h
    match qsList, h with
    | [], _ => rfl
    | q :: q' :: rest, _ => rfl
  · intro f t s tok h
    unfold Range.mk'
    rw [h]

/-- Witness for C5: both-children-and-kwargs, zero and two operands, unknown
token. -/
theorem c5_usage_errors_witness :
    Q.mk' [.empty] .andOp [("a", .ofRaw (.str "b"))] = .error .invalidArgument ∧
    QOperator.not_ [] = .error .invalidArgument ∧
    QOperator.boost ["x", "y"] (.int 1) = .error .invalidArgument ∧
    Range.mk' (.ofRaw (.int 1)) (.ofRaw (.int 2)) none "anything" =
      .error .invalidArgument :=
  ⟨c5_usage_errors.1 [.empty] .andOp [("a", .ofRaw (.str "b"))]
      (List.cons_ne_nil _ _) (List.cons_ne_nil _ _),
   c5_usage_errors.2.1 [] (by decide),
   c5_usage_errors.2.2.1 ["x", "y"] (.int 1) (by decide),
   c5_usage_errors.2.2.2.1 (.ofRaw (.int 1)) (.ofRaw (.int 2)) none "anything" rfl⟩

/-- C10: a range built with an explicit `safe=False` first translates a
datetime or timedelta endpoint to its safe textual form, then the explicit
override resets the endpoint's safe flag to false, so the rendered range
escapes the reserved characters inside the translated text; in particular
`str(Range(timedelta(days=1), 'x', safe=False))` is
`[NOW\+1DAYS\+0SECONDS\+0MILLISECONDS TO x]` with every `+` escaped. -/
theorem c10_safe_false_reescapes_translation :
    (∀ (t : PyTimedelta) (toRaw : RawV),
      (Range.mk' (.ofRaw (.td t)) (.ofRaw toRaw) (some false) "inclusive").map
          RangeObj.from_ =
        .ok { raw := (Value.mk' (.td t) false).raw, safe := false } ∧
      (Range.mk' (.ofRaw (.td t)) (.ofRaw toRaw) (some false) "inclusive").map
          RangeObj.render =
        .ok ("[" ++ Value.escapeStr ((Value.mk' (.td t) false).raw.pyStr) ++ " TO " ++
          Value.escapeStr ((Value.mk' toRaw false).raw.pyStr) ++ "]")) ∧
    (∀ (d : PyDatetime) (toRaw : RawV),
      (Range.mk' (.ofRaw (.dt d)) (.ofRaw toRaw) (some false) "inclusive").map
          RangeObj.from_ =
        .ok { raw := (Value.mk' (.dt d) false).raw, safe := false } ∧
      (Range.mk' (.ofRaw (.dt d)) (.ofRaw toRaw) (some false) "inclusive").map
          RangeObj.render =
        .ok ("[" ++ Value.escapeStr ((Value.mk' (.dt d) false).raw.pyStr) ++ " TO " ++
          Value.escapeStr ((Value.mk' toRaw false).raw.pyStr) ++ "]")) ∧
    (Range.mk' (.ofRaw (.td ⟨1, 0, 0⟩)) (.ofRaw (.str "x")) (some false) "inclusive").map
        RangeObj.render =
      .ok "[NOW\\+1DAYS\\+0SECONDS\\+0MILLISECONDS TO x]" :=
  ⟨fun _ _ => ⟨rfl, rfl⟩, fun _ _ => ⟨rfl, rfl⟩, rfl⟩

theorem setSafeS_length (σ : Store) (a : Addr) (b : Bool) :
    (setSafeS σ a b).length = σ.length := by
  unfold setSafeS
  cases σ.get? a <;> simp

theorem setSafeS_get?_ne (σ : Store) (a : Addr) (b : Bool) {i : Addr} (h : i ≠ a) :
    (setSafeS σ a b).get? i = σ.get? i := by
  unfold setSafeS
  cases σ.get? a with
  | none => rfl
  | some v => exact List.get?_set_ne _ _ fun hh => h hh.symm

theorem setSafeS_safe (σ : Store) (a : Addr) (b : Bool) (ha : a < σ.length) :
    ∀ v, (setSafeS σ a b).get? a = some v → v.safe = b := by
  intro v hv
  unfold setSafeS at hv
  cases hg : σ.get? a with
  | none =>
    exact absurd ha (not_lt.2 (List.get?_eq_none.1 hg))
  | some w =>
    rw [hg] at hv
    rw [List.get?_set_eq_of_lt _ ha] at hv
    cases hv
    rfl

theorem setSafeS_setSafeS_safe (σ : Store) (x y : Addr) (b : Bool)
    (hx : x < σ.length) :
    ∀ v, (setSafeS (setSafeS σ x b) y b).get? x = some v → v.safe = b := by
  intro v hv
  by_cases hxy : x = y
  · subst hxy
    exact setSafeS_safe (setSafeS σ x b) x b (by rw [setSafeS_length]; exact hx) v hv
  · rw [setSafeS_get?_ne _ _ _ hxy] at hv
    exact setSafeS_safe σ x b hx v hv

theorem resolveEndpointS_get?_lt (σ : Store) (e : Addr ⊕ RawV) (s : Option Bool)
    {i : Addr} (h : i < σ.length) :
    (resolveEndpointS σ e s).1.get? i = σ.get? i := by
  cases e with
  | inl a => rfl
  | inr r => exact List.get?_append h

theorem resolveEndpointS_length_le (σ : Store) (e : Addr ⊕ RawV) (s : Option Bool) :
    σ.length ≤ (resolveEndpointS σ e s).1.length := by
  cases e with
  | inl a => exact le_refl _
  | inr r => simp [resolveEndpointS, valueInitS, Store.alloc]

theorem resolveEndpointS_addr_lt (σ : Store) (e : Addr ⊕ RawV) (s : Option Bool)
    (hv : ∀ x, e = .inl x → x < σ.length) :
    (resolveEndpointS σ e s).2 < (resolveEndpointS σ e s).1.length := by
  cases e with
  | inl a => exact hv a rfl
  | inr r => simp [resolveEndpointS, valueInitS, Store.alloc]

mutual

theorem compileS_store_eq (σ : Store) (e : Bool) (q : QNodeS) :
    (compileS σ e q).1 = σ := by
  cases q with
  | leaf field query => rfl
  | node op children =>
    cases children with
    | nil => rfl
    | cons c cs => exact compileListS_store_eq σ (c :: cs)
  | empty => rfl

theorem compileListS_store_eq (σ : Store) (l : List QNodeS) :
    (compileListS σ l).1 = σ := by
  cases l with
  | nil => rfl
  | cons q qs =>
    have h1 : (compileS σ true q).1 = σ := compileS_store_eq σ true q
    have h2 : (compileListS (compileS σ true q).1 qs).1 = (compileS σ true q).1 :=
      compileListS_store_eq (compileS σ true q).1 qs
    simp only [compileListS]
    cases hp : (compileS σ true q).2 with
    | error e => simpa using h1
    | ok s => simpa using h2.trans h1

end

/-- C9: rendering and compiling mutate nothing — they return the store they
received — while `Range.__init__` is the single mutating constructor: run
with an explicit `safe` it leaves every pre-existing cell other than its two
endpoint cells untouched (fresh cells are only appended) and leaves each
endpoint cell's safe flag equal to the override, all before the range is
returned; run without an explicit `safe` it leaves every pre-existing cell
untouched. -/
theorem c9_object_immutability :
    (∀ (σ : Store) (a : Addr), (valueStrS σ a).1 = σ) ∧
    (∀ (σ : Store) (e : Bool) (q : QNodeS), (compileS σ e q).1 = σ) ∧
    (∀ (σ : Store) (f t : Addr ⊕ RawV) (tok : String) (out : Store × Addr × Addr × Addr),
      rangeInitS σ f t none tok = .ok out →
      ∀ i, i < σ.length → out.1.get? i = σ.get? i) ∧
    (∀ (σ : Store) (f t : Addr ⊕ RawV) (b : Bool) (tok : String)
        (out : Store × Addr × Addr × Addr),
      (∀ x, f = .inl x → x < σ.length) →
      (∀ x, t = .inl x → x < σ.length) →
      rangeInitS σ f t (some b) tok = .ok out →
      (∀ i, i < σ.length → i ≠ out.2.1 → i ≠ out.2.2.1 →
        out.1.get? i = σ.get? i) ∧
      (∀ v, out.1.get? out.2.1 = some v → v.safe = b) ∧
      (∀ v, out.1.get? out.2.2.1 = some v → v.safe = b)) := by
  refine ⟨fun _ _ => rfl, compileS_store_eq, ?_, ?_⟩
  · intro σ f t tok out h i hi
    unfold rangeInitS at h
    cases hb : boundaryLookup tok <;> rw [hb] at h
    · exact absurd h (by simp)
    · simp only [Except.ok.injEq] at h
      subst h
      show ((resolveEndpointS (resolveEndpointS σ f none).1 t none).1 ++ [_]).get? i =
        σ.get? i
      rw [List.get?_append
        (lt_of_lt_of_le hi ((resolveEndpointS_length_le σ f none).trans
          (resolveEndpointS_length_le (resolveEndpointS σ f none).1 t none)))]
      rw [resolveEndpointS_get?_lt (resolveEndpointS σ f none).1 t none
        (lt_of_lt_of_le hi (resolveEndpointS_length_le σ f none))]
      exact resolveEndpointS_get?_lt σ f none hi
  · intro σ f t b tok out hf ht h
    unfold rangeInitS at h
    cases hb : boundaryLookup tok <;> rw [hb] at h
    · exact absurd h (by simp)
    · simp only [Except.ok.injEq] at h
      subst h
      have hlen1 : σ.length ≤ (resolveEndpointS σ f (some b)).1.length :=
        resolveEndpointS_length_le σ f (some b)
      have hlen2 : (resolveEndpointS σ f (some b)).1.length ≤
          (resolveEndpointS (resolveEndpointS σ f (some b)).1 t (some b)).1.length :=
        resolveEndpointS_length_le (resolveEndpointS σ f (some b)).1 t (some b)
      have haF : (resolveEndpointS σ f (some b)).2 <
          (resolveEndpointS (resolveEndpointS σ f (some b)).1 t (some b)).1.length :=
        lt_of_lt_of_le (resolveEndpointS_addr_lt σ f (some b) hf) hlen2
      have haT : (resolveEndpointS (resolveEndpointS σ f (some b)).1 t (some b)).2 <
          (resolveEndpointS (resolveEndpointS σ f (some b)).1 t (some b)).1.length :=
        resolveEndpointS_addr_lt (resolveEndpointS σ f (some b)).1 t (some b)
          (fun x hx => lt_of_lt_of_le (ht x hx) hlen1)
      refine ⟨?_, ?_, ?_⟩
      · intro i hi hiF hiT
        show ((setSafeS (setSafeS
            (resolveEndpointS (resolveEndpointS σ f (some b)).1 t (some b)).1
            (resolveEndpointS σ f (some b)).2 b)
            (resolveEndpointS (resolveEndpointS σ f (some b)).1 t (some b)).2 b) ++
            [_]).get? i = σ.get? i
        rw [List.get?_append (by
          rw [setSafeS_length, setSafeS_length]
          exact lt_of_lt_of_le hi (hlen1.trans hlen2))]
        rw [setSafeS_get?_ne _ _ _ hiT, setSafeS_get?_ne _ _ _ hiF]
        rw [resolveEndpointS_get?_lt (resolveEndpointS σ f (some b)).1 t (some b)
          (lt_of_lt_of_le hi hlen1)]
        exact resolveEndpointS_get?_lt σ f (some b) hi
      · intro v hv
        have hv' : (setSafeS (setSafeS
            (resolveEndpointS (resolveEndpointS σ f (some b)).1 t (some b)).1
            (resolveEndpointS σ f (some b)).2 b)
            (resolveEndpointS (resolveEndpointS σ f (some b)).1 t (some b)).2 b).get?
              (resolveEndpointS σ f (some b)).2 = some v := by
          rw [← List.get?_append (by
            rw [setSafeS_length, setSafeS_length]; exact haF)]
          exact hv
        exact setSafeS_setSafeS_safe _ _ _ b haF v hv'
      · intro v hv
        have hv' : (setSafeS (setSafeS
            (resolveEndpointS (resolveEndpointS σ f (some b)).1 t (some b)).1
            (resolveEndpointS σ f (some b)).2 b)
            (resolveEndpointS (resolveEndpointS σ f (some b)).1 t (some b)).2 b).get?
              (resolveEndpointS (resolveEndpointS σ f (some b)).1 t (some b)).2 =
            some v := by
          rw [← List.get?_append (by
            rw [setSafeS_length, setSafeS_length]; exact haT)]
          exact hv
        exact setSafeS_safe _ _ b (by rw [setSafeS_length]; exact haT) v hv'

/-- Witness for C9: `Range(v0, "b", safe=False)` over a two-cell heap leaves
the untouched cell unchanged and flips the endpoint cell's safe flag. -/
theorem c9_object_immutability_witness :
    ([⟨.str "a", false⟩, ⟨.str "c", true⟩, ⟨.str "b", false⟩,
        ⟨.str "[a TO b]", true⟩] : Store).get? 1 =
      ([⟨.str "a", true⟩, ⟨.str "c", true⟩] : Store).get? 1 ∧
    (⟨.str "a", false⟩ : Value).safe = false := by
  have happ := c9_object_immutability.2.2.2
    [⟨.str "a", true⟩, ⟨.str "c", true⟩] (.inl 0) (.inr (.str "b")) false "inclusive"
    ([⟨.str "a", false⟩, ⟨.str "c", true⟩, ⟨.str "b", false⟩,
      ⟨.str "[a TO b]", true⟩], 0, 2, 3)
    (fun x hx => by injection hx with h2; subst h2; decide)
    (fun x hx => by cases hx)
    rfl
  exact ⟨happ.1 1 (by decide) (by decide) (by decide),
    happ.2.1 ⟨.str "a", false⟩ rfl⟩

end Solrq
